import Mathlib

/-
  Verification of the swisscore-tba-lite Telegram bot library against its
  natural-language specification.

  The definitions below are shallow embeddings of the Python source:
  dictionaries become association lists or explicit structures, in-place
  mutation becomes explicit state passing, raised exceptions become Except
  values, and `asyncio` plumbing that the claims do not touch (semaphores,
  task objects) is elided.  Source locations are cited next to each
  definition.
-/

namespace TbaLite

/-- Exceptions of the Python runtime that the embedded code can raise. -/
inductive PyErr where
  | indexError
  | keyError
  | attributeError
  | typeError
  | fileNotFoundError
  deriving DecidableEq, Repr

/-! ## Token validation (utils.is_valid_bot_api_token, used by BaseBot.__init__)

`BaseBot.__init__` (core/base_bot.py lines 239-240) rejects the token when
`utils.is_valid_bot_api_token(token)` is false.  The function itself is not
under src/ (the utils package in src/ does not define it), so it is modelled
from the spec below. -/

/-- Decides the character class of the regex escape for a decimal digit. -/
def isDigitChar (c : Char) : Bool :=
  decide ('0' ≤ c) && decide (c ≤ '9')

/-- Decides membership in the character class of ASCII letters, digits,
    underscore and hyphen used by the token pattern after the colon. -/
def isTokenTailChar (c : Char) : Bool :=
  (decide ('A' ≤ c) && decide (c ≤ 'Z')) ||
  (decide ('a' ≤ c) && decide (c ≤ 'z')) ||
  isDigitChar c || decide (c = '_') || decide (c = '-')

/-- Executable matcher for the anchored token pattern: six or more decimal
    digits, a colon, then one or more characters among ASCII letters, digits,
    underscore and hyphen. -/
def matchesTokenChars (cs : List Char) : Bool :=
  decide (6 ≤ (cs.takeWhile isDigitChar).length) &&
    match cs.dropWhile isDigitChar with
    | c :: tail => decide (c = ':') && decide (tail ≠ []) && tail.all isTokenTailChar
    | [] => false

/-- Modelled from the spec: `is_valid_bot_api_token` is imported by the core
    from the utils package but its definition is missing from src/; the spec
    states the token must match the anchored pattern of six or more decimal
    digits, a colon, and a nonempty run of ASCII letters, digits, underscore
    or hyphen. -/
def is_valid_bot_api_token (s : String) : Bool :=
  matchesTokenChars s.data

/-- Structural reading of the spec pattern: the character list splits as a
    digit block of length at least six, a colon, and a nonempty tail drawn
    from the allowed tail character class. -/
def TokenPattern (cs : List Char) : Prop :=
  ∃ a b, cs = a ++ ':' :: b ∧ 6 ≤ a.length ∧
    (∀ c ∈ a, isDigitChar c = true) ∧ b ≠ [] ∧ (∀ c ∈ b, isTokenTailChar c = true)

/-- Constructing a bot validates the token first (core/base_bot.py lines
    239-240); on failure a TypeError is raised, otherwise construction
    proceeds. -/
def newBot (token : String) : Except PyErr String :=
  if is_valid_bot_api_token token then .ok token else .error .typeError

theorem takeWhile_all_append {p : Char → Bool} (a : List Char) (x : Char) (b : List Char)
    (ha : ∀ c ∈ a, p c = true) (hx : p x = false) :
    (a ++ x :: b).takeWhile p = a ∧ (a ++ x :: b).dropWhile p = x :: b := by
  induction a with
  | nil => simp [List.takeWhile, List.dropWhile, hx]
  | cons c a ih =>
    have hc : p c = true := ha c (List.mem_cons_self c a)
    have hrest : ∀ d ∈ a, p d = true := fun d hd => ha d (List.mem_cons_of_mem c hd)
    have := ih hrest
    simp [List.takeWhile, List.dropWhile, hc, this.1, this.2]

theorem matchesTokenChars_iff (cs : List Char) :
    matchesTokenChars cs = true ↔ TokenPattern cs := by
  constructor
  · intro h
    unfold matchesTokenChars at h
    rcases hsplit : cs.dropWhile isDigitChar with _ | ⟨c, tail⟩
    · rw [hsplit] at h
      simp at h
    · rw [hsplit] at h
      simp only [Bool.and_eq_true, decide_eq_true_eq, List.all_eq_true] at h
      obtain ⟨hlen, ⟨hc, htail⟩, hall⟩ := h
      refine ⟨cs.takeWhile isDigitChar, tail, ?_, hlen, ?_, htail, ?_⟩
      · conv_lhs => rw [← List.takeWhile_append_dropWhile (p := isDigitChar) (l := cs)]
        rw [hsplit, hc]
      · intro d hd
        exact List.mem_takeWhile_imp hd
      · intro d hd
        exact hall d hd
  · rintro ⟨a, b, rfl, hlen, ha, hb, hball⟩
    have hcolon : isDigitChar ':' = false := by decide
    obtain ⟨htake, hdrop⟩ := takeWhile_all_append a ':' b ha hcolon
    unfold matchesTokenChars
    rw [htake, hdrop]
    simp only [Bool.and_eq_true, decide_eq_true_eq, List.all_eq_true]
    exact ⟨hlen, ⟨trivial, hb⟩, fun d hd => hball d hd⟩

/-! ## Exit codes (core/exit_codes.py and the polling loop that reads them) -/

/-- Names bound at module level in core/exit_codes.py: the import `Enum` and
    the class `ExitCodes`.  The enum member names live on the class, not on
    the module. -/
inductive ExitModuleMember where
  | importedEnum
  | enumCls
  deriving DecidableEq, Repr

/-- Module-level attribute lookup on core/exit_codes.py. -/
def exitModuleAttr (name : String) : Option ExitModuleMember :=
  if name = "Enum" then some .importedEnum
  else if name = "ExitCodes" then some .enumCls
  else none

/-- Reading a module attribute raises AttributeError when the name is not
    bound in the module namespace. -/
def readExitModuleAttr (name : String) : Except PyErr ExitModuleMember :=
  match exitModuleAttr name with
  | some m => .ok m
  | none => .error .attributeError

/-- Members of the ExitCodes enum with their integer values
    (core/exit_codes.py lines 3-14). -/
def exitCodesEnumMembers : List (String × Int) :=
  [("TERMITATED_BY_USER", 0), ("UNEXPECTED_ERROR", 1),
   ("CRITICAL_TELEGRAM_ERROR", 2), ("UNEXPECTED_TELEGRAM_ERROR", 3)]

/-- The module attributes `BaseBot._polling_loop` reads to assign exit codes
    (core/base_bot.py lines 689, 702, 709, 715, 720). -/
def pollingLoopExitAttrRefs : List String :=
  ["RESTART", "TERMITATED_BY_USER", "CRITICAL_TELEGRAM_ERROR",
   "UNEXPECTED_TELEGRAM_ERROR", "UNEXPECTED_ERROR"]

/-- Exit code table stated by the spec. -/
def specExitCodes : List (String × Int) :=
  [("terminated-by-user", 0), ("restart-requested", 1), ("unexpected-error", 2),
   ("critical-Telegram-error", 3), ("unexpected-Telegram-error", 4)]

/-! ## Dispatch engine (core/event.py, EventManager.__process_update, lines 62-102)

Payloads are a type parameter `P`.  A Python callable that may mutate its
dict argument in place is rendered as a function returning its answer
together with the payload state it leaves behind; the engine decides what to
do with that state.  The source passes `deepcopy(obj)` to permanent-handler
filters and handlers, so the engine hands each callee the engine's own value
of `obj` and discards the state the callee returns (a deep copy shares
nothing with the original, so mutating it has no observable effect). -/

/-- Value returned by a handler: the UNHANDLED sentinel
    (EventManager.UNHANDLED, event.py line 24) or anything else. -/
inductive HandlerResult where
  | unhandled
  | handled
  deriving DecidableEq, Repr

/-- Permanent handler (class EventHandler, event.py lines 303-353):
    `matchesFn` is the conjunction of its filters as run by
    EventHandler.matches, `runFn` the handler callable.  The second component
    of each result is the payload state the callee leaves in its argument. -/
structure StaticHandler (P : Type) where
  matchesFn : P → Bool × P
  runFn : P → HandlerResult × P

/-- Trace of one run over the permanent handlers of a category:
    which handler indices had their filters evaluated and on what argument,
    which were invoked (argument and returned result), and which handler, if
    any, accepted the update. -/
structure StaticTrace (P : Type) where
  filterCalls : List (Nat × P)
  handlerCalls : List (Nat × P × HandlerResult)
  handledBy : Option Nat

/-- Permanent-handler loop (event.py lines 89-99): iterate in registration
    order; evaluate filters on a deep copy of the payload; on a match invoke
    the handler on a second deep copy; a result of UNHANDLED continues with
    the next handler, anything else returns True. -/
def processStaticAux {P : Type} (obj : P) : List (Nat × StaticHandler P) → StaticTrace P
  | [] => ⟨[], [], none⟩
  | (i, h) :: rest =>
    let m := h.matchesFn obj
    if m.1 then
      let r := h.runFn obj
      match r.1 with
      | .unhandled =>
        let t := processStaticAux obj rest
        ⟨(i, obj) :: t.filterCalls, (i, obj, HandlerResult.unhandled) :: t.handlerCalls, t.handledBy⟩
      | .handled => ⟨[(i, obj)], [(i, obj, HandlerResult.handled)], some i⟩
    else
      let t := processStaticAux obj rest
      ⟨(i, obj) :: t.filterCalls, t.handlerCalls, t.handledBy⟩

/-- One step of a temporary handler (a pair of sub-filters and a callable in
    EventManager.wait_for's handlers argument, modelled after class
    EventHandler used as a step). -/
structure TempStep (P : Type) where
  subOk : P → Bool
  run : P → HandlerResult

/-- Temporary handler (class TemporaryEventHandler, event.py lines 355-404):
    expiry state at dispatch time, the conjunction of its shared filters, and
    its steps in order. -/
structure TempHandler (P : Type) where
  expired : Bool
  sharedOk : P → Bool
  steps : List (TempStep P)

/-- Trace of the temporary-handler phase: invoked step owners with the step
    result, identifiers removed from the registry, and whether the phase
    returned (stopping all further processing of this update). -/
structure TempTrace where
  invoked : List (Nat × HandlerResult)
  removed : List Nat
  stopped : Bool

/-- Temporary-handler loop (event.py lines 66-86): iterate over a snapshot;
    expired handlers are removed and skipped; when the shared filters match,
    the first step whose sub-filters match is invoked: UNHANDLED returns
    (keeping the handler), any other result removes the handler and returns;
    when no step matches, a warning is logged and iteration continues. -/
def processTempsAux {P : Type} (obj : P) : List (Nat × TempHandler P) → TempTrace
  | [] => ⟨[], [], false⟩
  | (i, th) :: rest =>
    if th.expired then
      let t := processTempsAux obj rest
      ⟨t.invoked, i :: t.removed, t.stopped⟩
    else if th.sharedOk obj then
      match th.steps.find? (fun s => s.subOk obj) with
      | some s =>
        match s.run obj with
        | .unhandled => ⟨[(i, HandlerResult.unhandled)], [], true⟩
        | .handled => ⟨[(i, HandlerResult.handled)], [i], true⟩
      | none => processTempsAux obj rest
    else processTempsAux obj rest

/-- Result of EventManager.__process_update for one update of a category:
    the temporary phase trace, the permanent phase trace (empty when the
    temporary phase already returned), and whether some handler accepted. -/
structure DispatchResult (P : Type) where
  tempTrace : TempTrace
  staticTrace : StaticTrace P
  handled : Bool

/-- EventManager.__process_update (event.py lines 62-102): temporary
    handlers first; if that phase returned, permanent handlers are never
    consulted, otherwise they run in registration order. -/
def dispatchUpdate {P : Type} (temps : List (Nat × TempHandler P))
    (statics : List (StaticHandler P)) (obj : P) : DispatchResult P :=
  let tt := processTempsAux obj temps
  if tt.stopped then ⟨tt, ⟨[], [], none⟩, true⟩
  else
    let st := processStaticAux obj statics.enum
    ⟨tt, st, st.handledBy.isSome⟩

/-- Temporary registry left after a dispatch, given the identifiers removed
    (EventManager._remove_temporary_event_handler, event.py lines 55-60). -/
def tempsAfter {P : Type} (temps : List (Nat × TempHandler P)) (rem : List Nat) :
    List (Nat × TempHandler P) :=
  temps.filter (fun p => decide (p.1 ∉ rem))

theorem tempsAfter_mem_fst {P : Type} (temps : List (Nat × TempHandler P)) (rem : List Nat)
    (i : Nat) : (i ∈ (tempsAfter temps rem).map Prod.fst) ↔
      (i ∈ temps.map Prod.fst ∧ i ∉ rem) := by
  simp only [tempsAfter, List.mem_map, List.mem_filter, decide_eq_true_eq]
  constructor
  · rintro ⟨p, ⟨hp, hrem⟩, rfl⟩
    exact ⟨⟨p, hp, rfl⟩, hrem⟩
  · rintro ⟨⟨p, hp, rfl⟩, hrem⟩
    exact ⟨p, ⟨hp, hrem⟩, rfl⟩

theorem processTempsAux_spec {P : Type} (obj : P) :
    ∀ temps : List (Nat × TempHandler P), (temps.map Prod.fst).Nodup →
    (((processTempsAux obj temps).invoked = [] ∧ (processTempsAux obj temps).stopped = false) ∨
     (∃ i r, (processTempsAux obj temps).invoked = [(i, r)] ∧
       (processTempsAux obj temps).stopped = true ∧
       i ∈ temps.map Prod.fst ∧
       (r = HandlerResult.unhandled → i ∉ (processTempsAux obj temps).removed) ∧
       (r = HandlerResult.handled → i ∈ (processTempsAux obj temps).removed))) := by
  intro temps
  induction temps with
  | nil => intro _; left; exact ⟨rfl, rfl⟩
  | cons hd rest ih =>
    intro hnodup
    obtain ⟨i, th⟩ := hd
    rw [List.map_cons, List.nodup_cons] at hnodup
    obtain ⟨hni, hnd⟩ := hnodup
    have hrec := ih hnd
    cases hexp : th.expired with
    | true =>
      have heq : processTempsAux obj ((i, th) :: rest) =
          ⟨(processTempsAux obj rest).invoked, i :: (processTempsAux obj rest).removed,
            (processTempsAux obj rest).stopped⟩ := by
        simp [processTempsAux, hexp]
      rw [heq]
      rcases hrec with ⟨hinv, hstop⟩ | ⟨j, r, hinv, hstop, hmem, hun, hha⟩
      · exact Or.inl ⟨hinv, hstop⟩
      · refine Or.inr ⟨j, r, hinv, hstop, List.mem_cons_of_mem _ hmem, ?_, ?_⟩
        · intro hr hmemrem
          rcases List.mem_cons.mp hmemrem with heq2 | hmemrem2
          · exact hni (heq2 ▸ hmem)
          · exact hun hr hmemrem2
        · intro hr
          exact List.mem_cons_of_mem _ (hha hr)
    | false =>
      cases hsh : th.sharedOk obj with
      | false =>
        have heq : processTempsAux obj ((i, th) :: rest) = processTempsAux obj rest := by
          simp [processTempsAux, hexp, hsh]
        rw [heq]
        rcases hrec with ⟨hinv, hstop⟩ | ⟨j, r, hinv, hstop, hmem, hun, hha⟩
        · exact Or.inl ⟨hinv, hstop⟩
        · exact Or.inr ⟨j, r, hinv, hstop, List.mem_cons_of_mem _ hmem, hun, hha⟩
      | true =>
        rcases hfind : th.steps.find? (fun s => s.subOk obj) with _ | s
        · have heq : processTempsAux obj ((i, th) :: rest) = processTempsAux obj rest := by
            simp [processTempsAux, hexp, hsh, hfind]
          rw [heq]
          rcases hrec with ⟨hinv, hstop⟩ | ⟨j, r, hinv, hstop, hmem, hun, hha⟩
          · exact Or.inl ⟨hinv, hstop⟩
          · exact Or.inr ⟨j, r, hinv, hstop, List.mem_cons_of_mem _ hmem, hun, hha⟩
        · cases hrun : s.run obj with
          | unhandled =>
            have heq : processTempsAux obj ((i, th) :: rest) =
                ⟨[(i, HandlerResult.unhandled)], [], true⟩ := by
              simp [processTempsAux, hexp, hsh, hfind, hrun]
            rw [heq]
            exact Or.inr ⟨i, HandlerResult.unhandled, rfl, rfl, List.mem_cons_self _ _,
              fun _ h => (List.not_mem_nil _ h), fun hr => absurd hr (by decide)⟩
          | handled =>
            have heq : processTempsAux obj ((i, th) :: rest) =
                ⟨[(i, HandlerResult.handled)], [i], true⟩ := by
              simp [processTempsAux, hexp, hsh, hfind, hrun]
            rw [heq]
            exact Or.inr ⟨i, HandlerResult.handled, rfl, rfl, List.mem_cons_self _ _,
              fun hr => absurd hr (by decide), fun _ => List.mem_singleton.mpr rfl⟩

/-- C8: whenever a temporary handler's shared filters match an update and a
    matching step callable is invoked, a step result of UNHANDLED keeps the
    handler in the temporary registry and stops processing of this update (no
    later temporary or permanent handler is tried); any other result removes
    the handler from the registry and also stops processing. -/
theorem c8_temporary_handler_retirement {P : Type}
    (temps : List (Nat × TempHandler P)) (statics : List (StaticHandler P)) (obj : P)
    (hnodup : (temps.map Prod.fst).Nodup) (i : Nat) (r : HandlerResult)
    (hinv : (i, r) ∈ (dispatchUpdate temps statics obj).tempTrace.invoked) :
    (dispatchUpdate temps statics obj).tempTrace.invoked = [(i, r)] ∧
    (dispatchUpdate temps statics obj).staticTrace.filterCalls = [] ∧
    (dispatchUpdate temps statics obj).staticTrace.handlerCalls = [] ∧
    (r = HandlerResult.unhandled →
      i ∈ (tempsAfter temps (dispatchUpdate temps statics obj).tempTrace.removed).map Prod.fst) ∧
    (r = HandlerResult.handled →
      i ∉ (tempsAfter temps (dispatchUpdate temps statics obj).tempTrace.removed).map Prod.fst) := by
  have htt : (dispatchUpdate temps statics obj).tempTrace = processTempsAux obj temps := by
    unfold dispatchUpdate
    rcases h : (processTempsAux obj temps).stopped <;> simp [h]
  rcases processTempsAux_spec obj temps hnodup with ⟨hinv0, _⟩ |
    ⟨j, s, hinvEq, hstop, hmem, hun, hha⟩
  · rw [htt, hinv0] at hinv
    exact absurd hinv (List.not_mem_nil _)
  · have hdisp : dispatchUpdate temps statics obj =
        ⟨processTempsAux obj temps, ⟨[], [], none⟩, true⟩ := by
      unfold dispatchUpdate
      simp [hstop]
    rw [hdisp] at hinv ⊢
    rw [show (TbaLite.DispatchResult.mk (processTempsAux obj temps)
      (⟨[], [], none⟩ : StaticTrace P) true).tempTrace = processTempsAux obj temps from rfl,
      hinvEq] at hinv
    have heq : (i, r) = (j, s) := List.mem_singleton.mp hinv
    have h1 : i = j := congrArg Prod.fst heq
    have h2 : r = s := congrArg Prod.snd heq
    subst h1
    subst h2
    refine ⟨hinvEq, rfl, rfl, ?_, ?_⟩
    · intro hr
      exact (tempsAfter_mem_fst temps _ i).mpr ⟨hmem, hun hr⟩
    · intro hr hcontra
      exact ((tempsAfter_mem_fst temps _ i).mp hcontra).2 (hha hr)

/-- Temporary handler used by the witness: not expired, shared filters match
    everything, single step that reports the update handled. -/
def c8WitnessTemp : TempHandler Unit :=
  ⟨false, fun _ => true, [⟨fun _ => true, fun _ => HandlerResult.handled⟩]⟩

theorem c8_temporary_handler_retirement_witness :
    0 ∉ (tempsAfter [(0, c8WitnessTemp)]
      (dispatchUpdate [(0, c8WitnessTemp)] ([] : List (StaticHandler Unit)) ()).tempTrace.removed).map
      Prod.fst :=
  (c8_temporary_handler_retirement [(0, c8WitnessTemp)] [] () (by simp) 0 HandlerResult.handled
    (by decide)).2.2.2.2 rfl

theorem processStaticAux_handlerCalls_sublist {P : Type} (obj : P) :
    ∀ l : List (Nat × StaticHandler P),
      List.Sublist ((processStaticAux obj l).handlerCalls.map fun x => x.1) (l.map Prod.fst) := by
  intro l
  induction l with
  | nil => exact List.Sublist.refl _
  | cons hd rest ih =>
    obtain ⟨i, h⟩ := hd
    cases hm : (h.matchesFn obj).1 with
    | false =>
      have heq : processStaticAux obj ((i, h) :: rest) =
          ⟨(i, obj) :: (processStaticAux obj rest).filterCalls,
            (processStaticAux obj rest).handlerCalls,
            (processStaticAux obj rest).handledBy⟩ := by
        simp [processStaticAux, hm]
      rw [heq]
      exact List.Sublist.cons _ ih
    | true =>
      cases hr : (h.runFn obj).1 with
      | unhandled =>
        have heq : processStaticAux obj ((i, h) :: rest) =
            ⟨(i, obj) :: (processStaticAux obj rest).filterCalls,
              (i, obj, HandlerResult.unhandled) :: (processStaticAux obj rest).handlerCalls,
              (processStaticAux obj rest).handledBy⟩ := by
          simp [processStaticAux, hm, hr]
        rw [heq]
        exact List.Sublist.cons₂ _ ih
      | handled =>
        have heq : processStaticAux obj ((i, h) :: rest) =
            ⟨[(i, obj)], [(i, obj, HandlerResult.handled)], some i⟩ := by
          simp [processStaticAux, hm, hr]
        rw [heq]
        exact List.Sublist.cons₂ _ (List.nil_sublist _)

theorem processStaticAux_dropLast_unhandled {P : Type} (obj : P) :
    ∀ l : List (Nat × StaticHandler P),
      ∀ x ∈ (processStaticAux obj l).handlerCalls.dropLast, x.2.2 = HandlerResult.unhandled := by
  intro l
  induction l with
  | nil => intro x hx; simp [processStaticAux] at hx
  | cons hd rest ih =>
    obtain ⟨i, h⟩ := hd
    cases hm : (h.matchesFn obj).1 with
    | false =>
      have heq : processStaticAux obj ((i, h) :: rest) =
          ⟨(i, obj) :: (processStaticAux obj rest).filterCalls,
            (processStaticAux obj rest).handlerCalls,
            (processStaticAux obj rest).handledBy⟩ := by
        simp [processStaticAux, hm]
      rw [heq]
      exact ih
    | true =>
      cases hr : (h.runFn obj).1 with
      | unhandled =>
        have heq : processStaticAux obj ((i, h) :: rest) =
            ⟨(i, obj) :: (processStaticAux obj rest).filterCalls,
              (i, obj, HandlerResult.unhandled) :: (processStaticAux obj rest).handlerCalls,
              (processStaticAux obj rest).handledBy⟩ := by
          simp [processStaticAux, hm, hr]
        rw [heq]
        intro x hx
        rcases hcalls : (processStaticAux obj rest).handlerCalls with _ | ⟨y, ys⟩
        · rw [show ((i, obj, HandlerResult.unhandled) ::
            (processStaticAux obj rest).handlerCalls).dropLast = [] by
              rw [hcalls]; rfl] at hx
          exact absurd hx (List.not_mem_nil _)
        · rw [show ((i, obj, HandlerResult.unhandled) ::
            (processStaticAux obj rest).handlerCalls).dropLast =
              (i, obj, HandlerResult.unhandled) ::
                (processStaticAux obj rest).handlerCalls.dropLast by
              rw [hcalls]; rfl] at hx
          rcases List.mem_cons.mp hx with hx1 | hx2
          · rw [hx1]
          · exact ih x hx2
      | handled =>
        have heq : processStaticAux obj ((i, h) :: rest) =
            ⟨[(i, obj)], [(i, obj, HandlerResult.handled)], some i⟩ := by
          simp [processStaticAux, hm, hr]
        rw [heq]
        intro x hx
        simp at hx

theorem processStaticAux_args {P : Type} (obj : P) :
    ∀ l : List (Nat × StaticHandler P),
      (∀ x ∈ (processStaticAux obj l).filterCalls, x.2 = obj) ∧
      (∀ x ∈ (processStaticAux obj l).handlerCalls, x.2.1 = obj) := by
  intro l
  induction l with
  | nil =>
    constructor <;> intro x hx <;> simp [processStaticAux] at hx
  | cons hd rest ih =>
    obtain ⟨i, h⟩ := hd
    cases hm : (h.matchesFn obj).1 with
    | false =>
      have heq : processStaticAux obj ((i, h) :: rest) =
          ⟨(i, obj) :: (processStaticAux obj rest).filterCalls,
            (processStaticAux obj rest).handlerCalls,
            (processStaticAux obj rest).handledBy⟩ := by
        simp [processStaticAux, hm]
      rw [heq]
      refine ⟨?_, ih.2⟩
      intro x hx
      rcases List.mem_cons.mp hx with hx1 | hx2
      · rw [hx1]
      · exact ih.1 x hx2
    | true =>
      cases hr : (h.runFn obj).1 with
      | unhandled =>
        have heq : processStaticAux obj ((i, h) :: rest) =
            ⟨(i, obj) :: (processStaticAux obj rest).filterCalls,
              (i, obj, HandlerResult.unhandled) :: (processStaticAux obj rest).handlerCalls,
              (processStaticAux obj rest).handledBy⟩ := by
          simp [processStaticAux, hm, hr]
        rw [heq]
        constructor <;> intro x hx <;> rcases List.mem_cons.mp hx with hx1 | hx2
        · rw [hx1]
        · exact ih.1 x hx2
        · rw [hx1]
        · exact ih.2 x hx2
      | handled =>
        have heq : processStaticAux obj ((i, h) :: rest) =
            ⟨[(i, obj)], [(i, obj, HandlerResult.handled)], some i⟩ := by
          simp [processStaticAux, hm, hr]
        rw [heq]
        constructor <;> intro x hx <;> rcases List.mem_singleton.mp hx with rfl <;> rfl

/-- Handlers are answer-equivalent when they agree on the filter verdict and
    the handler result at every payload, possibly differing in how they
    mutate their argument. -/
def AnswerEquiv {P : Type} (h k : StaticHandler P) : Prop :=
  ∀ p, (h.matchesFn p).1 = (k.matchesFn p).1 ∧ (h.runFn p).1 = (k.runFn p).1

theorem processStaticAux_mutation_free {P : Type} (obj : P)
    {l1 l2 : List (Nat × StaticHandler P)}
    (h : List.Forall₂ (fun a b => a.1 = b.1 ∧ AnswerEquiv a.2 b.2) l1 l2) :
    processStaticAux obj l1 = processStaticAux obj l2 := by
  induction h with
  | nil => rfl
  | cons hab htail ih =>
    rename_i a b tl1 tl2
    obtain ⟨hfst, hequiv⟩ := hab
    obtain ⟨i, ha⟩ := a
    obtain ⟨j, hb⟩ := b
    obtain rfl : i = j := hfst
    obtain ⟨hmeq, hreq⟩ := hequiv obj
    cases hm : (ha.matchesFn obj).1 with
    | false =>
      have hm2 : (hb.matchesFn obj).1 = false := hmeq ▸ hm
      simp [processStaticAux, hm, hm2, ih]
    | true =>
      have hm2 : (hb.matchesFn obj).1 = true := hmeq ▸ hm
      cases hr : (ha.runFn obj).1 with
      | unhandled =>
        have hr2 : (hb.runFn obj).1 = HandlerResult.unhandled := hreq ▸ hr
        simp [processStaticAux, hm, hm2, hr, hr2, ih]
      | handled =>
        have hr2 : (hb.runFn obj).1 = HandlerResult.handled := hreq ▸ hr
        simp [processStaticAux, hm, hm2, hr, hr2]

theorem forall2_enumFrom {P : Type} {R : StaticHandler P → StaticHandler P → Prop} :
    ∀ (n : Nat) {l1 l2 : List (StaticHandler P)}, List.Forall₂ R l1 l2 →
      List.Forall₂ (fun a b => a.1 = b.1 ∧ R a.2 b.2) (l1.enumFrom n) (l2.enumFrom n) := by
  intro n l1 l2 h
  induction h generalizing n with
  | nil => exact List.Forall₂.nil
  | cons hab htail ih =>
    exact List.Forall₂.cons ⟨rfl, hab⟩ (ih (n + 1))

/-- C10: in the permanent-handler loop, filters are evaluated on a fresh deep
    copy of the payload and the handler is invoked on a second fresh deep
    copy, so every candidate's filter and handler receives the original
    payload value, and traces are unchanged when handlers are replaced by
    answer-equivalent ones that mutate their argument differently: no
    mutation by a filter or handler is observable elsewhere. -/
theorem c10_deepcopy_isolation {P : Type} (obj : P) (statics : List (StaticHandler P)) :
    (∀ x ∈ (processStaticAux obj statics.enum).filterCalls, x.2 = obj) ∧
    (∀ x ∈ (processStaticAux obj statics.enum).handlerCalls, x.2.1 = obj) ∧
    (∀ statics2 : List (StaticHandler P), List.Forall₂ AnswerEquiv statics statics2 →
      processStaticAux obj statics.enum = processStaticAux obj statics2.enum) :=
  ⟨(processStaticAux_args obj statics.enum).1,
   (processStaticAux_args obj statics.enum).2,
   fun _ h2 => processStaticAux_mutation_free obj (forall2_enumFrom 0 h2)⟩

/-- Mutating handler used by the C10 witness. -/
def c10MutH : StaticHandler Nat :=
  ⟨fun p => (true, p + 100), fun p => (HandlerResult.handled, p + 7)⟩

/-- Pure handler used by the C10 witness, answer-equivalent to the mutating
    one. -/
def c10PureH : StaticHandler Nat :=
  ⟨fun p => (true, p), fun p => (HandlerResult.handled, p)⟩

theorem c10_deepcopy_isolation_witness :
    ((0, (5 : Nat)) : Nat × Nat).2 = 5 ∧
    processStaticAux 5 [c10MutH].enum = processStaticAux 5 [c10PureH].enum :=
  ⟨(c10_deepcopy_isolation 5 [c10MutH]).1 (0, 5) (by decide),
   (c10_deepcopy_isolation 5 [c10MutH]).2.2 [c10PureH]
     (List.Forall₂.cons (fun _ => ⟨rfl, rfl⟩) List.Forall₂.nil)⟩

/-- Permanent handler of scenario S2 with no filters returning UNHANDLED. -/
def s2H1 : StaticHandler Unit :=
  ⟨fun p => (true, p), fun p => (HandlerResult.unhandled, p)⟩

/-- Permanent handler of scenario S2 with no filters returning nothing. -/
def s2H2 : StaticHandler Unit :=
  ⟨fun p => (true, p), fun p => (HandlerResult.handled, p)⟩

/-- C7: the dispatch engine invokes at most one permanent handler unless
    every invoked permanent handler returned UNHANDLED, in which case
    strictly later-registered handlers of the same category are tried in
    registration order; in scenario S2 (H1 filterless returning UNHANDLED,
    H2 filterless returning nothing) one delivered message invokes H1 then H2
    in a single dispatch cycle. -/
theorem c7_unhandled_chain :
    (∀ (P : Type) (obj : P) (statics : List (StaticHandler P)),
      ((processStaticAux obj statics.enum).handlerCalls.map fun x => x.1).Pairwise (· < ·) ∧
      ∀ x ∈ (processStaticAux obj statics.enum).handlerCalls.dropLast,
        x.2.2 = HandlerResult.unhandled) ∧
    ((dispatchUpdate ([] : List (Nat × TempHandler Unit)) [s2H1, s2H2] ()).staticTrace.handlerCalls.map
        (fun x => (x.1, x.2.2)) = [(0, HandlerResult.unhandled), (1, HandlerResult.handled)] ∧
      (dispatchUpdate ([] : List (Nat × TempHandler Unit)) [s2H1, s2H2] ()).staticTrace.handledBy =
        some 1) := by
  constructor
  · intro P obj statics
    constructor
    · have hsub := processStaticAux_handlerCalls_sublist obj statics.enum
      have hrange : (statics.enum.map Prod.fst).Pairwise (· < ·) := by
        rw [List.enum_map_fst]
        exact List.pairwise_lt_range _
      exact hrange.sublist hsub
    · exact processStaticAux_dropLast_unhandled obj statics.enum
  · constructor
    · decide
    · decide

theorem c7_unhandled_chain_witness :
    ((0, (), HandlerResult.unhandled) : Nat × Unit × HandlerResult).2.2 =
      HandlerResult.unhandled :=
  (c7_unhandled_chain.1 Unit () [s2H1, s2H1]).2 (0, (), HandlerResult.unhandled) (by decide)

/-- C4: the spec's exit code table does not match core/exit_codes.py: the
    module has no RESTART member and none of the names the polling loop reads
    are module attributes (they are members of the ExitCodes class, whose
    values are also shifted by one against the spec table: unexpected error
    is 1, critical Telegram error 2, unexpected Telegram error 3). -/
theorem c4_exit_codes_module_mismatch :
    (pollingLoopExitAttrRefs.all fun n => (exitModuleAttr n).isNone) = true ∧
    readExitModuleAttr "RESTART" = Except.error PyErr.attributeError ∧
    exitCodesEnumMembers.lookup "RESTART" = none ∧
    exitCodesEnumMembers.lookup "UNEXPECTED_ERROR" = some 1 ∧
    exitCodesEnumMembers.lookup "CRITICAL_TELEGRAM_ERROR" = some 2 ∧
    exitCodesEnumMembers.lookup "UNEXPECTED_TELEGRAM_ERROR" = some 3 ∧
    specExitCodes.lookup "restart-requested" = some 1 ∧
    specExitCodes.lookup "unexpected-error" = some 2 ∧
    specExitCodes.lookup "critical-Telegram-error" = some 3 ∧
    specExitCodes.lookup "unexpected-Telegram-error" = some 4 :=
  ⟨by decide, rfl, by decide, by decide, by decide, by decide, by decide, by decide, by decide,
    by decide⟩

/-- C5: constructing a bot succeeds exactly when the token string matches the
    spec pattern of six or more decimal digits, a colon, and a nonempty run
    of ASCII letters, digits, underscore or hyphen, and raises otherwise. -/
theorem c5_newBot_ok_iff_token_pattern (token : String) :
    newBot token = Except.ok token ↔ TokenPattern token.data := by
  rw [← matchesTokenChars_iff]
  unfold newBot is_valid_bot_api_token
  cases h : matchesTokenChars token.data
  · simp [h]
  · simp [h]

theorem c5_newBot_ok_iff_token_pattern_witness :
    newBot "123456:ABC-_z" = Except.ok "123456:ABC-_z" :=
  (c5_newBot_ok_iff_token_pattern "123456:ABC-_z").mpr
    ⟨['1', '2', '3', '4', '5', '6'], ['A', 'B', 'C', '-', '_', 'z'], by decide, by decide,
      by decide, by decide, by decide⟩

/-! ## Update plumbing (BaseBot.process_update and EventManager._trigger_event)

Concrete payloads are JSON-like values.  `BaseBot.process_update`
(base_bot.py lines 582-608) extracts the update id, the category key and the
payload, then awaits `self.event._trigger_event(update_type, update_object)`
with a single positional argument after the event name, while the update
branch of `_trigger_event` (event.py lines 128-136) reads both `args[0]` and
`args[1]`. -/

/-- JSON-like values carried by Telegram updates. -/
inductive JVal where
  | str (s : String)
  | num (n : Int)
  | boolean (b : Bool)
  | arr (xs : List JVal)
  | dict (fields : List (String × JVal))

/-- Dictionary lookup on a JSON value; none for missing keys or non-dicts. -/
def jGet : JVal → String → Option JVal
  | .dict fields, k => fields.lookup k
  | _, _ => none

/-- Python subscript access on a dict: a missing key raises KeyError. -/
def jIndex (j : JVal) (k : String) : Except PyErr JVal :=
  match jGet j k with
  | some v => Except.ok v
  | none => Except.error PyErr.keyError

/-- Python slice text from index 1 up to an exclusive stop index. -/
def pySliceFrom1 (s : String) (stop : Int) : String :=
  String.mk ((s.data.take stop.toNat).drop 1)

/-- First field of splitting a string at the at sign, i.e. the characters
    before the first at sign. -/
def splitAtSignHead (s : String) : String :=
  String.mk (s.data.takeWhile (fun c => decide (c ≠ '@')))

/-- Inner loop of the commands filter over the entity list
    (filters/generators.py lines 97-102). -/
def commandsFilterGo (cmds : List String) (obj : JVal) : List JVal → Except PyErr Bool
  | [] => Except.ok false
  | e :: rest => do
    let ty ← jIndex e "type"
    let off ← jIndex e "offset"
    let isCmdEntity : Bool :=
      (match ty with | JVal.str s => decide (s = "bot_command") | _ => false) &&
      (match off with | JVal.num n => decide (n = 0) | _ => false)
    if isCmdEntity then
      let len ← jIndex e "length"
      let txt ← jIndex obj "text"
      match txt, len with
      | JVal.str s, JVal.num n =>
        if splitAtSignHead (pySliceFrom1 s n) ∈ cmds then Except.ok true
        else commandsFilterGo cmds obj rest
      | _, _ => Except.error PyErr.typeError
    else commandsFilterGo cmds obj rest

/-- The commands filter generator for text messages (filters/generators.py
    lines 90-103): leading slashes are stripped from the configured commands,
    the entity list defaults to empty when absent, and each bot_command
    entity at offset 0 compares the text from index 1 to the entity length,
    with a bot-name suffix after an at sign removed, against the commands. -/
def commandsFilter (cmdsArg : List String) (obj : JVal) : Except PyErr Bool :=
  let cmds := cmdsArg.map (fun c => String.mk (c.data.dropWhile (fun ch => decide (ch = '/'))))
  let ents := match jGet obj "entities" with
    | some (JVal.arr l) => l
    | _ => []
  commandsFilterGo cmds obj ents

/-- A Telegram update: integer identifier, its single category key, and the
    payload under that key (the category is extracted structurally by
    utils.get_update_type). -/
structure Update where
  updateId : Int
  categoryKey : String
  payload : JVal

/-- Values passed as positional arguments through _trigger_event. -/
inductive PyArg where
  | dict (payload : JVal)
  | int (n : Int)

/-- Argument reads of the update branch of EventManager._trigger_event
    (event.py lines 128-130): obj is args[0] and update_id is args[1]; a
    missing positional index raises IndexError before the dispatch task is
    created. -/
def triggerEventUpdateArgs (args : List PyArg) : Except PyErr (PyArg × PyArg) := do
  let obj ← match args.get? 0 with
    | some v => Except.ok v
    | none => Except.error PyErr.indexError
  let uid ← match args.get? 1 with
    | some v => Except.ok v
    | none => Except.error PyErr.indexError
  Except.ok (obj, uid)

/-- Handler registries per category key, as consulted by __process_update. -/
structure EventRegistry where
  temps : String → List (Nat × TempHandler JVal)
  statics : String → List (StaticHandler JVal)

/-- BaseBot.process_update (base_bot.py lines 582-608): extracts the fields
    of the update and awaits _trigger_event with the category name and the
    payload as its only positional argument, exactly as the source call site
    does; only restart, filter-evaluation and handler errors are caught
    there, so any other exception propagates to the polling loop. -/
def process_update (reg : EventRegistry) (u : Update) : Except PyErr (DispatchResult JVal) := do
  let (obj, _uid) ← triggerEventUpdateArgs [PyArg.dict u.payload]
  match obj with
  | PyArg.dict p =>
    Except.ok (dispatchUpdate (reg.temps u.categoryKey) (reg.statics u.categoryKey) p)
  | PyArg.int _ => Except.error PyErr.typeError

/-- Invocations performed by one dispatch, as handler index and result. -/
def invokedOf (d : DispatchResult JVal) : List (Nat × HandlerResult) :=
  d.tempTrace.invoked ++ d.staticTrace.handlerCalls.map (fun x => (x.1, x.2.2))

/-- The update-draining loop of one getUpdates batch (base_bot.py lines
    683-685): each update is processed and then the polling offset becomes
    its update id plus one; an exception escaping process_update aborts the
    loop before the offset assignment and propagates. -/
def pollBatch (reg : EventRegistry) (offset : Int) :
    List Update → Int × List (Nat × HandlerResult) × Option PyErr
  | [] => (offset, [], none)
  | u :: rest =>
    match process_update reg u with
    | .error e => (offset, [], some e)
    | .ok d =>
      let (o, inv, err) := pollBatch reg (u.updateId + 1) rest
      (o, invokedOf d ++ inv, err)

/-- The S1 message payload: a private-chat text message reading slash ping
    with a bot_command entity at offset 0 of length 5. -/
def s1Message : JVal :=
  JVal.dict [("chat", JVal.dict [("id", JVal.num 1), ("type", JVal.str "private")]),
    ("text", JVal.str "/ping"),
    ("entities", JVal.arr [JVal.dict [("type", JVal.str "bot_command"),
      ("offset", JVal.num 0), ("length", JVal.num 5)]])]

/-- The S1 update with id 10 and category message. -/
def s1Update : Update := ⟨10, "message", s1Message⟩

/-- The S1 permanent handler: filter commands of ping, handler returning
    nothing.  A filter that raises would surface as FilterEvaluationError,
    which this scenario does not exercise, so an error verdict is rendered
    as a non-match. -/
def s1Handler : StaticHandler JVal :=
  ⟨fun p => ((match commandsFilter ["ping"] p with
      | Except.ok b => b
      | Except.error _ => false), p),
   fun p => (HandlerResult.handled, p)⟩

/-- The S1 registry: one permanent message handler, no temporary handlers. -/
def s1Registry : EventRegistry :=
  ⟨fun _ => [], fun c => if c = "message" then [s1Handler] else []⟩

/-- C1: code bug evidence for scenario S1.  The registered handler's filter
    does accept the S1 payload, but process_update passes only the payload to
    _trigger_event whose update branch reads args[1], so dispatch raises
    IndexError before any handler runs: the batch loop performs zero handler
    invocations, the offset stays at 0 instead of advancing to 11, and the
    IndexError escapes (process_update catches only restart, filter and
    handler errors). -/
theorem c1_process_update_index_error :
    commandsFilter ["ping"] s1Message = Except.ok true ∧
    triggerEventUpdateArgs [PyArg.dict s1Message] = Except.error PyErr.indexError ∧
    pollBatch s1Registry 0 [s1Update] = (0, [], some PyErr.indexError) :=
  ⟨rfl, rfl, rfl⟩

/-! ## Request pipeline (BaseBot.__call__.request, base_bot.py lines 492-578) -/

/-- Outcome of one HTTP attempt, as the pipeline classifies it. -/
inductive Attempt where
  | success (result : Int)
  | tgError (retryable : Bool) (retryAfter : Option Int)
  | timeout

/-- Terminal outcome of the request coroutine. -/
inductive ReqOutcome where
  | ok (v : Int)
  | resultConversionError
  | tgErrorRaised (retryable : Bool) (retryAfter : Option Int)
  | maxRetriesExceeded
  deriving DecidableEq, Repr

/-- The retry loop of the request coroutine (base_bot.py lines 508-578) with
    the HTTP transcript abstracted as the outcome of each successive attempt
    and results abstracted as integers.  The while condition compares retries
    against max_retries before each attempt, and retries only advances in the
    retry branches.  After a successful attempt the source extracts the
    result; with a converter it applies it, turning a converter exception
    into ResultConversion, but the `return result` at line 540 sits in the
    converter-free else branch only, so after a successful conversion control
    falls out of the try block and re-enters the while loop.  `fuel` bounds
    the iterations modelled; a first component of none means the loop was
    still running when the fuel ran out.  The second component counts HTTP
    attempts. -/
def requestLoop (maxRetries : Nat) (convert : Option (Int → Except Unit Int))
    (transcript : Nat → Attempt) : Nat → Nat → Nat → Option ReqOutcome × Nat
  | fuel, retries, attempts =>
    if maxRetries ≤ retries then (some ReqOutcome.maxRetriesExceeded, attempts)
    else
      match fuel with
      | 0 => (none, attempts)
      | f + 1 =>
        match transcript attempts with
        | Attempt.success r =>
          match convert with
          | some conv =>
            match conv r with
            | Except.ok _ =>
              requestLoop maxRetries convert transcript f retries (attempts + 1)
            | Except.error _ => (some ReqOutcome.resultConversionError, attempts + 1)
          | none => (some (ReqOutcome.ok r), attempts + 1)
        | Attempt.tgError retryable ra =>
          if retryable && (match ra with | some k => decide (k ≠ 0) | none => false) then
            requestLoop maxRetries convert transcript f (retries + 1) (attempts + 1)
          else (some (ReqOutcome.tgErrorRaised retryable ra), attempts + 1)
        | Attempt.timeout =>
          requestLoop maxRetries convert transcript f (retries + 1) (attempts + 1)

theorem requestLoop_success_with_converter (conv : Int → Int) :
    ∀ (fuel attempts : Nat),
      requestLoop 5 (some fun r => Except.ok (conv r)) (fun _ => Attempt.success 7) fuel 0 attempts =
        (none, attempts + fuel) := by
  intro fuel
  induction fuel with
  | zero => intro attempts; rfl
  | succ f ih =>
    intro attempts
    show requestLoop 5 (some fun r => Except.ok (conv r)) (fun _ => Attempt.success 7) f 0
        (attempts + 1) = (none, attempts + (f + 1))
    rw [ih (attempts + 1)]
    congr 1
    omega

/-- C2: code bug evidence.  With a converter supplied and every HTTP attempt
    succeeding, the loop never returns the converted value and keeps issuing
    attempts (fuel n yields n attempts and no outcome, for every n); a
    converter that raises is reported as ResultConversion after one attempt;
    and the converter-free path returns the raw result after one attempt,
    showing the missing return is specific to the converter branch. -/
theorem c2_converter_result_discarded :
    (∀ n : Nat, requestLoop 5 (some fun r => Except.ok (r + 1))
      (fun _ => Attempt.success 7) n 0 0 = (none, n)) ∧
    requestLoop 5 (some fun _ => Except.error ()) (fun _ => Attempt.success 7) 10 0 0 =
      (some ReqOutcome.resultConversionError, 1) ∧
    requestLoop 5 none (fun _ => Attempt.success 7) 10 0 0 = (some (ReqOutcome.ok 7), 1) := by
  refine ⟨fun n => ?_, rfl, rfl⟩
  have := requestLoop_success_with_converter (fun r => r + 1) n 0
  simpa using this

/-! ## Error taxonomy (core/exceptions.py lines 80-189)

Error objects store whatever values their constructor bound, so attribute
values are Python literals.  The GatewayTimeout constructor passes its
arguments to the base constructor in a shape that makes Python argument
binding fail, so constructors are modelled through explicit call binding
against the parameter list of TelegramAPIError.__init__. -/

/-- Python literal values stored in error attributes. -/
inductive PyLit where
  | int (n : Int)
  | str (s : String)
  | boolean (b : Bool)
  | noneVal
  deriving DecidableEq, Repr

/-- Parameters of TelegramAPIError.__init__ after self, with their default
    values where present (exceptions.py line 82). -/
def tgErrorInitParams : List (String × Option PyLit) :=
  [("method_name", none), ("status_code", none),
   ("message", some (PyLit.str "Unknown Error")),
   ("retryable", some (PyLit.boolean false)), ("retry_after", some PyLit.noneVal),
   ("critical", some (PyLit.boolean false))]

/-- Binds positional arguments to the leading parameters; passing more
    positional arguments than parameters raises TypeError. -/
def bindPositional : List (String × Option PyLit) → List PyLit →
    Except PyErr (List (String × PyLit))
  | _, [] => Except.ok []
  | [], _ :: _ => Except.error PyErr.typeError
  | (nm, _) :: ps, v :: vs => do
    let bound ← bindPositional ps vs
    Except.ok ((nm, v) :: bound)

/-- Applies keyword arguments: a keyword already bound positionally raises
    TypeError (multiple values for argument), as does an unknown keyword. -/
def applyKw (allNames : List String) :
    List (String × PyLit) → List (String × PyLit) → Except PyErr (List (String × PyLit))
  | bound, [] => Except.ok bound
  | bound, (k, v) :: kws =>
    if k ∈ bound.map Prod.fst then Except.error PyErr.typeError
    else if k ∉ allNames then Except.error PyErr.typeError
    else applyKw allNames ((k, v) :: bound) kws

/-- Resolves one parameter from the bound arguments or its default; a
    missing required argument raises TypeError. -/
def resolveParam (bound : List (String × PyLit)) : String × Option PyLit → Except PyErr PyLit
  | (nm, dflt) =>
    match bound.lookup nm with
    | some v => Except.ok v
    | none =>
      match dflt with
      | some d => Except.ok d
      | none => Except.error PyErr.typeError

/-- Full Python call binding for TelegramAPIError.__init__: positional
    arguments, then keywords, then defaults, yielding the parameter values
    in declaration order. -/
def bindInit (pos : List PyLit) (kw : List (String × PyLit)) : Except PyErr (List PyLit) := do
  let bound ← bindPositional tgErrorInitParams pos
  let bound ← applyKw (tgErrorInitParams.map Prod.fst) bound kw
  tgErrorInitParams.mapM (resolveParam bound)

/-- Python class identity of the constructed error object. -/
inductive TgErrKind where
  | base
  | badRequest
  | unauthorized
  | forbidden
  | notFound
  | conflict
  | payloadTooLarge
  | tooManyRequests
  | internalServerError
  | badGateway
  | gatewayTimeout
  deriving DecidableEq, Repr

/-- State of a TelegramAPIError object after __init__ ran
    (exceptions.py lines 82-89). -/
structure TgError where
  kind : TgErrKind
  methodName : PyLit
  statusCode : PyLit
  message : PyLit
  retryable : PyLit
  retryAfter : PyLit
  critical : PyLit
  deriving DecidableEq, Repr

/-- Runs TelegramAPIError.__init__ through call binding of a super call. -/
def mkTgError (kind : TgErrKind) (pos : List PyLit) (kw : List (String × PyLit)) :
    Except PyErr TgError := do
  let vals ← bindInit pos kw
  match vals with
  | [m, s, msg, r, ra, c] => Except.ok ⟨kind, m, s, msg, r, ra, c⟩
  | _ => Except.error PyErr.typeError

/-- BadRequest (exceptions.py lines 92-95). -/
def mkBadRequest (m : String) (status : Int) (msg : String) : Except PyErr TgError :=
  mkTgError TgErrKind.badRequest [PyLit.str m, PyLit.int status, PyLit.str msg]
    [("retryable", PyLit.boolean false)]

/-- Unauthorized (exceptions.py lines 98-101). -/
def mkUnauthorized (m : String) (status : Int) (msg : String) : Except PyErr TgError :=
  mkTgError TgErrKind.unauthorized [PyLit.str m, PyLit.int status, PyLit.str msg]
    [("retryable", PyLit.boolean false), ("critical", PyLit.boolean true)]

/-- Forbidden (exceptions.py lines 104-107). -/
def mkForbidden (m : String) (status : Int) (msg : String) : Except PyErr TgError :=
  mkTgError TgErrKind.forbidden [PyLit.str m, PyLit.int status, PyLit.str msg]
    [("retryable", PyLit.boolean false)]

/-- NotFound (exceptions.py lines 110-113). -/
def mkNotFound (m : String) (status : Int) (msg : String) : Except PyErr TgError :=
  mkTgError TgErrKind.notFound [PyLit.str m, PyLit.int status, PyLit.str msg]
    [("retryable", PyLit.boolean false)]

/-- Conflict (exceptions.py lines 116-119). -/
def mkConflict (m : String) (status : Int) (msg : String) : Except PyErr TgError :=
  mkTgError TgErrKind.conflict [PyLit.str m, PyLit.int status, PyLit.str msg]
    [("retryable", PyLit.boolean false), ("critical", PyLit.boolean true)]

/-- PayloadTooLarge (exceptions.py lines 122-125). -/
def mkPayloadTooLarge (m : String) (status : Int) (msg : String) : Except PyErr TgError :=
  mkTgError TgErrKind.payloadTooLarge [PyLit.str m, PyLit.int status, PyLit.str msg]
    [("retryable", PyLit.boolean false)]

/-- TooManyRequests (exceptions.py lines 128-131): retryable with the given
    retry_after. -/
def mkTooManyRequests (m : String) (status : Int) (msg : String) (retryAfter : Int) :
    Except PyErr TgError :=
  mkTgError TgErrKind.tooManyRequests [PyLit.str m, PyLit.int status, PyLit.str msg]
    [("retryable", PyLit.boolean true), ("retry_after", PyLit.int retryAfter)]

/-- InternalServerError (exceptions.py lines 134-137). -/
def mkInternalServerError (m : String) (status : Int) (msg : String) : Except PyErr TgError :=
  mkTgError TgErrKind.internalServerError [PyLit.str m, PyLit.int status, PyLit.str msg]
    [("retryable", PyLit.boolean true), ("retry_after", PyLit.int 20)]

/-- BadGateway (exceptions.py lines 140-143). -/
def mkBadGateway (m : String) (status : Int) (msg : String) : Except PyErr TgError :=
  mkTgError TgErrKind.badGateway [PyLit.str m, PyLit.int status, PyLit.str msg]
    [("retryable", PyLit.boolean true), ("retry_after", PyLit.int 20)]

/-- GatewayTimeout (exceptions.py lines 146-149): its super call passes the
    five positional arguments 504, method_name, method_name, status_code,
    message together with the keywords retryable and retry_after, so the
    fourth positional value already lands on the retryable parameter. -/
def mkGatewayTimeout (m : String) (status : Int) (msg : String) : Except PyErr TgError :=
  mkTgError TgErrKind.gatewayTimeout
    [PyLit.int 504, PyLit.str m, PyLit.str m, PyLit.int status, PyLit.str msg]
    [("retryable", PyLit.boolean true), ("retry_after", PyLit.int 20)]

/-- The error_map of raise_for_telegram_error (exceptions.py lines 164-175):
    429 is commented out, and statuses absent from the map fall back to the
    base TelegramAPIError class called with three positional arguments. -/
def errorMapCtor (m : String) (status : Int) (desc : String) : Except PyErr TgError :=
  if status = 400 then mkBadRequest m status desc
  else if status = 401 then mkUnauthorized m status desc
  else if status = 403 then mkForbidden m status desc
  else if status = 404 then mkNotFound m status desc
  else if status = 409 then mkConflict m status desc
  else if status = 413 then mkPayloadTooLarge m status desc
  else if status = 500 then mkInternalServerError m status desc
  else if status = 502 then mkBadGateway m status desc
  else if status = 504 then mkGatewayTimeout m status desc
  else mkTgError TgErrKind.base [PyLit.str m, PyLit.int status, PyLit.str desc] []

/-- raise_for_telegram_error (exceptions.py lines 152-189): statuses below
    400 pass.  For status 429 a TooManyRequests is built first with the
    retry_after from the response body defaulting to 5, but the following
    404 check is an if, not an elif, so its else branch recomputes the
    classification from the error map for every status other than 404 and
    overwrites exc.  The function surfaces the raised error, or the
    TypeError a constructor itself raised while being evaluated.  The token
    sanitisation appended to the 404 description is omitted (sanitize_token
    is not under src/ and only alters the message text). -/
def raiseForTelegramError (m : String) (status : Int) (bodyRetryAfter : Option Int)
    (desc : String) : Except PyErr (Option TgError) :=
  if status < 400 then Except.ok none
  else
    (do
      let _exc429 ←
        if status = 429 then
          Except.map some (mkTooManyRequests m status desc (bodyRetryAfter.getD 5))
        else Except.ok none
      let exc ←
        if status = 404 then mkNotFound m status desc
        else errorMapCtor m status desc
      Except.ok (some exc))

/-- C3: code bug evidence.  A 429 response raises the base TelegramAPIError
    with retryable False and retry_after None (the TooManyRequests object
    carrying the body retry_after is built and then overwritten because the
    404 check is not an elif and 429 is commented out of the error map), and
    a 504 response raises a TypeError from the GatewayTimeout constructor
    (its super call binds retryable twice) instead of a retryable
    GatewayTimeout with retry_after 20. -/
theorem c3_error_classification_429_504 :
    raiseForTelegramError "sendMessage" 429 (some 7) "flood" =
      Except.ok (some ⟨TgErrKind.base, PyLit.str "sendMessage", PyLit.int 429,
        PyLit.str "flood", PyLit.boolean false, PyLit.noneVal, PyLit.boolean false⟩) ∧
    mkTooManyRequests "sendMessage" 429 "flood" 7 =
      Except.ok ⟨TgErrKind.tooManyRequests, PyLit.str "sendMessage", PyLit.int 429,
        PyLit.str "flood", PyLit.boolean true, PyLit.int 7, PyLit.boolean false⟩ ∧
    raiseForTelegramError "getUpdates" 504 none "timeout" = Except.error PyErr.typeError :=
  ⟨rfl, rfl, rfl⟩

/-! ## The allowed_updates parameter of the polling driver

The polling loop builds its getUpdates params dict once before entering the
loop (base_bot.py lines 654-660), with allowed_updates taken from
EventManager._get_handled_event_types (event.py lines 44-53); inside the
loop only the offset entry is ever reassigned (line 685).
EventManager.__call__ refuses registration only when locked (event.py lines
174-175), but _lock is never invoked anywhere under src/, so permanent
registration remains possible while polling runs; EventManager.wait_for
refuses a temporary registration whose category is not currently handled
(event.py lines 278-281) and temporary removal drops the category key when
its last handler goes (event.py lines 55-60). -/

/-- Category keys holding at least one handler in each registry. -/
structure Registry where
  perm : List String
  temp : List String
  deriving DecidableEq, Repr

/-- EventManager._get_handled_event_types: the categories handled by either
    registry (the source builds a set union of the key views). -/
def handledEventTypes (r : Registry) : List String :=
  (r.perm ++ r.temp).dedup

/-- Registry actions that can happen while the polling loop runs, plus the
    polls themselves. -/
inductive BotEvent where
  | registerPerm (c : String)
  | waitFor (c : String)
  | removeTemp (c : String)
  | poll
  deriving DecidableEq, Repr

/-- What one poll sent as allowed_updates and what the registries held at
    that moment. -/
structure PollRecord where
  sentAllowed : List String
  regAtPoll : Registry
  deriving DecidableEq, Repr

/-- Registry transition for one action: permanent registration adds the
    category key (never refused, the registry is never locked); wait_for
    adds a temporary key only when the category is already handled;
    temporary removal erases the key. -/
def stepEvent (r : Registry) : BotEvent → Registry
  | .registerPerm c => { r with perm := if c ∈ r.perm then r.perm else r.perm ++ [c] }
  | .waitFor c =>
    if c ∈ handledEventTypes r then
      { r with temp := if c ∈ r.temp then r.temp else r.temp ++ [c] }
    else r
  | .removeTemp c => { r with temp := r.temp.erase c }
  | .poll => r

/-- Runs the loop over the action sequence, recording each poll with the
    allowed_updates value carried in the params dict, which the loop fixed
    at entry. -/
def runPollingAux (allowed : List String) (r : Registry) : List BotEvent → List PollRecord
  | [] => []
  | ev :: evs =>
    let recs := runPollingAux allowed (stepEvent r ev) evs
    match ev with
    | .poll => ⟨allowed, r⟩ :: recs
    | _ => recs

/-- The polling loop: allowed_updates is computed once from the registries
    at loop start (base_bot.py line 658) and never refreshed. -/
def runPolling (r0 : Registry) (evs : List BotEvent) : List PollRecord :=
  runPollingAux (handledEventTypes r0) r0 evs

/-- C6 counterexample: starting with a permanent message handler only, a
    permanent registration for edited_message between two polls (possible,
    since the registry lock is never engaged) leaves the second poll sending
    only message while the registry at that moment holds an edited_message
    entry, so allowed_updates at that poll does not contain every category
    with a registered handler. -/
theorem c6_allowed_updates_counterexample :
    (runPolling ⟨["message"], []⟩
        [BotEvent.poll, BotEvent.registerPerm "edited_message", BotEvent.poll]).get? 1 =
      some ⟨["message"], ⟨["message", "edited_message"], []⟩⟩ ∧
    "edited_message" ∈ handledEventTypes ⟨["message", "edited_message"], []⟩ ∧
    "edited_message" ∉ (["message"] : List String) :=
  ⟨rfl, by decide, by decide⟩

theorem runPollingAux_sent_fixed (allowed : List String) :
    ∀ (evs : List BotEvent) (r : Registry),
      ∀ rec ∈ runPollingAux allowed r evs, rec.sentAllowed = allowed := by
  intro evs
  induction evs with
  | nil => intro r rec hrec; simp [runPollingAux] at hrec
  | cons ev evs ih =>
    intro r rec hrec
    cases ev with
    | poll =>
      rcases List.mem_cons.mp hrec with h1 | h2
      · rw [h1]
      · exact ih (stepEvent r BotEvent.poll) rec h2
    | registerPerm c => exact ih _ rec hrec
    | waitFor c => exact ih _ rec hrec
    | removeTemp c => exact ih _ rec hrec

/-- C6 amended: the allowed_updates value sent at every poll equals the union
    of registered category keys at the moment the polling loop started; the
    set is computed once at loop entry and registry changes after that are
    not reflected in later polls. -/
theorem c6_allowed_updates_fixed_at_start (r0 : Registry) (evs : List BotEvent) :
    ∀ rec ∈ runPolling r0 evs, rec.sentAllowed = handledEventTypes r0 :=
  runPollingAux_sent_fixed (handledEventTypes r0) evs r0

theorem c6_allowed_updates_fixed_at_start_witness :
    (⟨["message"], ⟨["message"], []⟩⟩ : PollRecord).sentAllowed =
      handledEventTypes ⟨["message"], []⟩ :=
  c6_allowed_updates_fixed_at_start ⟨["message"], []⟩ [BotEvent.poll]
    ⟨["message"], ⟨["message"], []⟩⟩ (by decide)

/-! ## Media staging (utils/__init__.py process_input_media, lines 90-124)

This is the staging the request pipeline actually runs: BaseBot.__call__
delegates to prepare_files (base_bot.py lines 147-184), which calls
utils.process_input_media.  The variant in utils/files.py
(prepare_input_media, lines 108-171), which uses deterministic file_0 and
file_1 tags and configurable sub-fields, is not referenced by the pipeline
(only the InputFile TypedDict is imported from that module).  The
token_urlsafe() generator is modelled as a token stream indexed by a
counter, and file bytes as lists of naturals. -/

/-- Value a media dict field can carry. -/
inductive FRef where
  | str (s : String)
  | path (p : String)
  | bytes (b : List Nat)
  | other
  deriving DecidableEq, Repr

/-- A media dict. -/
structure MediaItem where
  fields : List (String × FRef)
  deriving DecidableEq, Repr

/-- Dict field read. -/
def fieldGet (m : MediaItem) (k : String) : Option FRef :=
  m.fields.lookup k

/-- Dict field assignment on an existing key (the source assigns
    media of an item only after checking the key is present). -/
def fieldSet (m : MediaItem) (k : String) (v : FRef) : MediaItem :=
  ⟨m.fields.map (fun kv => if kv.1 = k then (k, v) else kv)⟩

/-- A request parameter value: a list of media dicts, a single media dict,
    or anything else. -/
inductive PVal where
  | mediaList (items : List MediaItem)
  | mediaSingle (item : MediaItem)
  | otherVal
  deriving DecidableEq, Repr

/-- The item loop of process_input_media (utils/__init__.py lines 103-120):
    for each dict item with a media key a fresh URL-safe token is drawn
    (even when the value ends up untouched); a string naming an existing
    local file is promoted to a path; a path is read (a missing path raises
    FileNotFoundError) and raw bytes are used directly, and in both cases
    the files map gains the token and the media field becomes the attach
    reference; any other value is left untouched.  `fs` maps a path to the
    bytes of an existing local file, `tokens` is the token_urlsafe stream,
    `n` the next stream index. -/
def stageItems (fs : String → Option (List Nat)) (tokens : Nat → String) :
    List MediaItem → Nat → Except PyErr (List MediaItem × List (String × List Nat) × Nat)
  | [], n => Except.ok ([], [], n)
  | m :: rest, n =>
    match fieldGet m "media" with
    | none => do
      let (rest2, files, n2) ← stageItems fs tokens rest n
      Except.ok (m :: rest2, files, n2)
    | some fref =>
      let fref2 := match fref with
        | FRef.str s => if (fs s).isSome then FRef.path s else FRef.str s
        | v => v
      let id := tokens n
      match fref2 with
      | FRef.path p =>
        match fs p with
        | some b => do
          let (rest2, files, n2) ← stageItems fs tokens rest (n + 1)
          Except.ok (fieldSet m "media" (FRef.str ("attach://" ++ id)) :: rest2,
            (id, b) :: files, n2)
        | none => Except.error PyErr.fileNotFoundError
      | FRef.bytes b => do
        let (rest2, files, n2) ← stageItems fs tokens rest (n + 1)
        Except.ok (fieldSet m "media" (FRef.str ("attach://" ++ id)) :: rest2,
          (id, b) :: files, n2)
      | _ => do
        let (rest2, files, n2) ← stageItems fs tokens rest (n + 1)
        Except.ok (m :: rest2, files, n2)

/-- utils.process_input_media (utils/__init__.py lines 90-124): for each
    checked key present in params whose value is a list, its items are
    staged (the media dicts are mutated in place, so the params entry
    reflects the staged items) and the mutated list is what json.dumps is
    applied to for the input_media result, the last processed key winning;
    a single media dict fails the isinstance list check and is skipped
    untouched.  The checked keys are the top-level keys of the
    check_input_media mapping the API facade passes; its per-key sub-field
    lists are never consulted, only the hardcoded media field is.  The
    third result component holds the list json.dumps serializes, or none
    when no list-valued key was processed. -/
def process_input_media (fs : String → Option (List Nat)) (tokens : Nat → String)
    (params : List (String × PVal)) :
    List String → Nat →
    Except PyErr (List (String × PVal) × List (String × List Nat) × Option (List MediaItem) × Nat)
  | [], n => Except.ok (params, [], none, n)
  | k :: ks, n =>
    match params.lookup k with
    | some (PVal.mediaList items) => do
      let (items2, files1, n1) ← stageItems fs tokens items n
      let params2 := params.map (fun kv => if kv.1 = k then (k, PVal.mediaList items2) else kv)
      let (params3, files2, media2, n2) ← process_input_media fs tokens params2 ks n1
      Except.ok (params3, files1 ++ files2,
        (match media2 with | some x => some x | none => some items2), n2)
    | _ => process_input_media fs tokens params ks n

/-- A multipart part payload: staged file bytes, the JSON text utils.dumps
    produces for a structured value (kept as the value it serializes), or
    the str() rendering of a scalar. -/
inductive PartVal where
  | bytes (b : List Nat)
  | jsonText (v : PVal)
  | strText
  deriving DecidableEq, Repr

/-- The field value create_form_data adds for a non-file param
    (utils/__init__.py line 135): dumps for dicts, lists and tuples, str
    otherwise. -/
def partOfParam : PVal → PartVal
  | PVal.mediaList items => PartVal.jsonText (PVal.mediaList items)
  | PVal.mediaSingle m => PartVal.jsonText (PVal.mediaSingle m)
  | PVal.otherVal => PartVal.strText

/-- utils.create_form_data (utils/__init__.py lines 126-137): each staged
    file becomes a part named by its key carrying the bytes, then every
    param whose key is not a file key becomes a text part. -/
def createFormParts (params : List (String × PVal)) (inputFiles : List (String × List Nat)) :
    List (String × PartVal) :=
  inputFiles.map (fun kv => (kv.1, PartVal.bytes kv.2)) ++
    (params.filter (fun kv => decide (kv.1 ∉ inputFiles.map Prod.fst))).map
      (fun kv => (kv.1, partOfParam kv.2))

/-- Media item used in the C9 scenarios: a photo whose media field holds raw
    bytes. -/
def c9Item : MediaItem := ⟨[("type", FRef.str "photo"), ("media", FRef.bytes [1, 2, 3])]⟩

/-- The item after staging with the first stream token. -/
def c9StagedItem : MediaItem :=
  ⟨[("type", FRef.str "photo"), ("media", FRef.str "attach://tok0")]⟩

/-- C9 counterexample: a single media dict is passed through untouched with
    no multipart part produced (the isinstance list check skips it), and for
    a one-element list the produced part is named by the random URL-safe
    token of this run, which is not the deterministic tag file_0. -/
theorem c9_media_staging_counterexample :
    process_input_media (fun _ => none) (fun k => "tok" ++ toString k)
        [("media", PVal.mediaSingle c9Item)] ["media"] 0 =
      Except.ok ([("media", PVal.mediaSingle c9Item)], [], none, 0) ∧
    process_input_media (fun _ => none) (fun k => "tok" ++ toString k)
        [("media", PVal.mediaList [c9Item])] ["media"] 0 =
      Except.ok ([("media", PVal.mediaList [c9StagedItem])], [("tok0", [1, 2, 3])],
        some [c9StagedItem], 1) ∧
    ("tok0" : String) ≠ "file_0" :=
  ⟨rfl, rfl, by decide⟩

theorem fieldGet_fieldSet {m : MediaItem} {k : String} {w v : FRef}
    (h : fieldGet m k = some w) : fieldGet (fieldSet m k v) k = some v := by
  obtain ⟨fields⟩ := m
  induction fields with
  | nil => simp [fieldGet, List.lookup] at h
  | cons kv rest ih =>
    obtain ⟨k1, v1⟩ := kv
    by_cases hk : k1 = k
    · subst hk
      have hmap : fieldSet ⟨(k1, v1) :: rest⟩ k1 v =
          ⟨(k1, v) :: rest.map (fun kv => if kv.1 = k1 then (k1, v) else kv)⟩ := by
        simp [fieldSet]
      rw [hmap]
      simp [fieldGet, List.lookup]
    · have hne : (k == k1) = false := beq_eq_false_iff_ne.mpr (Ne.symm hk)
      have hmap : fieldSet ⟨(k1, v1) :: rest⟩ k v =
          ⟨(k1, v1) :: (fieldSet ⟨rest⟩ k v).fields⟩ := by
        simp [fieldSet, hk]
      simp only [fieldGet, List.lookup, hne] at h
      rw [hmap]
      simp only [fieldGet, List.lookup, hne]
      exact ih h

/-- Properties of one staging run: every produced part is referenced by an
    attach URI from the media field of a staged item, and every item whose
    media field held raw bytes was rewritten to an attach URI whose part
    carries exactly those bytes. -/
def StagedOk (items : List MediaItem) (items2 : List MediaItem)
    (files : List (String × List Nat)) : Prop :=
  (∀ idb ∈ files, ∃ m2 ∈ items2,
    fieldGet m2 "media" = some (FRef.str ("attach://" ++ idb.1))) ∧
  (∀ i m b, items.get? i = some m → fieldGet m "media" = some (FRef.bytes b) →
    ∃ id, items2.get? i = some (fieldSet m "media" (FRef.str ("attach://" ++ id))) ∧
      (id, b) ∈ files)

theorem stageItems_spec (fs : String → Option (List Nat)) (tokens : Nat → String) :
    ∀ (items : List MediaItem) (n : Nat),
      match stageItems fs tokens items n with
      | Except.error _ => True
      | Except.ok (items2, files, _) => StagedOk items items2 files := by
  intro items
  induction items with
  | nil =>
    intro n
    refine ⟨fun idb hidb => absurd hidb (List.not_mem_nil _), ?_⟩
    intro i m b hm
    simp at hm
  | cons m0 rest ih =>
    intro n
    rcases hget : fieldGet m0 "media" with _ | fref
    · rcases hrec : stageItems fs tokens rest n with e | ⟨rest2, files0, n0⟩
      · simp only [stageItems, hget, hrec, Bind.bind, Except.bind]
      · have hih := ih n
        rw [hrec] at hih
        obtain ⟨hfiles, hidx⟩ := hih
        simp only [stageItems, hget, hrec, Bind.bind, Except.bind]
        refine ⟨?_, ?_⟩
        · intro idb hidb
          obtain ⟨m2, hm2, href⟩ := hfiles idb hidb
          exact ⟨m2, List.mem_cons_of_mem _ hm2, href⟩
        · intro i m b hm hb
          cases i with
          | zero =>
            obtain rfl : m0 = m := by simpa using hm
            rw [hget] at hb
            cases hb
          | succ j =>
            obtain ⟨id, hidx2, hmem⟩ := hidx j m b (by simpa using hm) hb
            exact ⟨id, by simpa using hidx2, hmem⟩
    · rcases hfref : (match fref with
          | FRef.str s => if (fs s).isSome then FRef.path s else FRef.str s
          | v => v) with s | p | b0 | _
      · -- stays a plain string (a file id or URL): untouched
        rcases hrec : stageItems fs tokens rest (n + 1) with e | ⟨rest2, files0, n0⟩
        · simp only [stageItems, hget, hfref, hrec, Bind.bind, Except.bind]
        · have hih := ih (n + 1)
          rw [hrec] at hih
          obtain ⟨hfiles, hidx⟩ := hih
          simp only [stageItems, hget, hfref, hrec, Bind.bind, Except.bind]
          refine ⟨?_, ?_⟩
          · intro idb hidb
            obtain ⟨m2, hm2, href⟩ := hfiles idb hidb
            exact ⟨m2, List.mem_cons_of_mem _ hm2, href⟩
          · intro i m b hm hb
            cases i with
            | zero =>
              obtain rfl : m0 = m := by simpa using hm
              rw [hget] at hb
              obtain rfl : fref = FRef.bytes b := by cases hb; rfl
              simp at hfref
            | succ j =>
              obtain ⟨id, hidx2, hmem⟩ := hidx j m b (by simpa using hm) hb
              exact ⟨id, by simpa using hidx2, hmem⟩
      · -- a path value: stages when the file exists, raises otherwise
        rcases hfs : fs p with _ | bts
        · simp only [stageItems, hget, hfref, hfs]
        · rcases hrec : stageItems fs tokens rest (n + 1) with e | ⟨rest2, files0, n0⟩
          · simp only [stageItems, hget, hfref, hfs, hrec, Bind.bind, Except.bind]
          · have hih := ih (n + 1)
            rw [hrec] at hih
            obtain ⟨hfiles, hidx⟩ := hih
            simp only [stageItems, hget, hfref, hfs, hrec, Bind.bind, Except.bind]
            refine ⟨?_, ?_⟩
            · intro idb hidb
              rcases List.mem_cons.mp hidb with h1 | h2
              · refine ⟨fieldSet m0 "media" (FRef.str ("attach://" ++ tokens n)),
                  List.mem_cons_self _ _, ?_⟩
                rw [h1]
                exact fieldGet_fieldSet hget
              · obtain ⟨m2, hm2, href⟩ := hfiles idb h2
                exact ⟨m2, List.mem_cons_of_mem _ hm2, href⟩
            · intro i m b hm hb
              cases i with
              | zero =>
                obtain rfl : m0 = m := by simpa using hm
                rw [hget] at hb
                obtain rfl : fref = FRef.bytes b := by cases hb; rfl
                simp at hfref
              | succ j =>
                obtain ⟨id, hidx2, hmem⟩ := hidx j m b (by simpa using hm) hb
                exact ⟨id, by simpa using hidx2, List.mem_cons_of_mem _ hmem⟩
      · -- raw bytes: stages directly
        rcases hrec : stageItems fs tokens rest (n + 1) with e | ⟨rest2, files0, n0⟩
        · simp only [stageItems, hget, hfref, hrec, Bind.bind, Except.bind]
        · have hih := ih (n + 1)
          rw [hrec] at hih
          obtain ⟨hfiles, hidx⟩ := hih
          simp only [stageItems, hget, hfref, hrec, Bind.bind, Except.bind]
          refine ⟨?_, ?_⟩
          · intro idb hidb
            rcases List.mem_cons.mp hidb with h1 | h2
            · refine ⟨fieldSet m0 "media" (FRef.str ("attach://" ++ tokens n)),
                List.mem_cons_self _ _, ?_⟩
              rw [h1]
              exact fieldGet_fieldSet hget
            · obtain ⟨m2, hm2, href⟩ := hfiles idb h2
              exact ⟨m2, List.mem_cons_of_mem _ hm2, href⟩
          · intro i m b hm hb
            cases i with
            | zero =>
              obtain rfl : m0 = m := by simpa using hm
              rw [hget] at hb
              obtain rfl : fref = FRef.bytes b := by cases hb; rfl
              have hbb : FRef.bytes b = FRef.bytes b0 := hfref
              obtain rfl : b0 = b := by cases hbb; rfl
              exact ⟨tokens n, rfl, List.mem_cons_self _ _⟩
            | succ j =>
              obtain ⟨id, hidx2, hmem⟩ := hidx j m b (by simpa using hm) hb
              exact ⟨id, by simpa using hidx2, List.mem_cons_of_mem _ hmem⟩
      · -- any other value: untouched, though a token was drawn
        rcases hrec : stageItems fs tokens rest (n + 1) with e | ⟨rest2, files0, n0⟩
        · simp only [stageItems, hget, hfref, hrec, Bind.bind, Except.bind]
        · have hih := ih (n + 1)
          rw [hrec] at hih
          obtain ⟨hfiles, hidx⟩ := hih
          simp only [stageItems, hget, hfref, hrec, Bind.bind, Except.bind]
          refine ⟨?_, ?_⟩
          · intro idb hidb
            obtain ⟨m2, hm2, href⟩ := hfiles idb hidb
            exact ⟨m2, List.mem_cons_of_mem _ hm2, href⟩
          · intro i m b hm hb
            cases i with
            | zero =>
              obtain rfl : m0 = m := by simpa using hm
              rw [hget] at hb
              obtain rfl : fref = FRef.bytes b := by cases hb; rfl
              simp at hfref
            | succ j =>
              obtain ⟨id, hidx2, hmem⟩ := hidx j m b (by simpa using hm) hb
              exact ⟨id, by simpa using hidx2, hmem⟩

/-- C9 amended: on the request path, only a list-valued media parameter is
    staged (a single media dict passes through untouched); for each item of
    the list whose media field (the only sub-field inspected) names an
    existing local file or holds raw bytes, the field is rewritten to an
    attach URI naming a fresh URL-safe random token and the multipart part
    of that name carries the file bytes; the mutated list is what the
    serialization step receives and the params entry now holds. -/
theorem c9_media_staging_amended (fs : String → Option (List Nat)) (tokens : Nat → String)
    (items items2 : List MediaItem) (files : List (String × List Nat)) (k : String) (n n2 : Nat)
    (h : stageItems fs tokens items n = Except.ok (items2, files, n2)) :
    process_input_media fs tokens [(k, PVal.mediaList items)] [k] n =
      Except.ok ([(k, PVal.mediaList items2)], files, some items2, n2) ∧
    StagedOk items items2 files ∧
    (∀ idb ∈ files, (idb.1, PartVal.bytes idb.2) ∈
      createFormParts [(k, PVal.mediaList items2)] files) := by
  refine ⟨?_, ?_, ?_⟩
  · simp only [process_input_media, List.lookup, beq_self_eq_true, h, Bind.bind, Except.bind,
      List.map_cons, List.map_nil, if_pos rfl]
    simp
  · have := stageItems_spec fs tokens items n
    rw [h] at this
    exact this
  · intro idb hidb
    unfold createFormParts
    exact List.mem_append_left _ (List.mem_map.mpr ⟨idb, hidb, rfl⟩)

theorem c9_media_staging_amended_witness :
    process_input_media (fun _ => none) (fun j => "tok" ++ toString j)
        [("media", PVal.mediaList [c9Item])] ["media"] 0 =
      Except.ok ([("media", PVal.mediaList [c9StagedItem])], [("tok0", [1, 2, 3])],
        some [c9StagedItem], 1) :=
  (c9_media_staging_amended (fun _ => none) (fun j => "tok" ++ toString j) [c9Item]
    [c9StagedItem] [("tok0", [1, 2, 3])] "media" 0 1 rfl).1
end TbaLite
